import Mathlib

/-!
Verification development for the mirror-dom outerHTML parser
(`src/python/mirrordom/parser.py`).

The Python class `OuterHTMLParser(HTMLParser)` is embedded shallowly:

* lxml `Element` trees become the inductive type `Node`; an element that is
  still open (on the Python stack, mutable) is a `PElem`.
* The mutable instance fields (`self.stack`, `self.root`, `self.retain_case`,
  `self.in_svg`, and the raw-text-mode `self.interesting` regex set by
  `set_specific_cdata_mode`) become the record `PState`, threaded explicitly.
  The top of the Python list `self.stack` (its last entry) is the HEAD of
  `PState.stack` here.
* In the source a new element is appended to its parent at open time and the
  parent is mutated in place afterwards.  In this functional embedding the
  completed child is appended into the parent's child list at the moment the
  child is popped from the stack.  This is observably equivalent: while a
  child is open its parent sits strictly below it on the stack, so no other
  operation reads the parent's children in between (`handle_data` and
  `handle_comment` only touch the stack top).
* Python exceptions become `Except PError`.  `self.error(...)` raises
  `HTMLParseError` (constructor `PError.parseError` with the source's message
  text); a raw `IndexError` from `self.stack[-1]` on an empty list is the
  distinct constructor `PError.indexError`.
-/

set_option autoImplicit false

namespace MirrorDom

/-! ### Character classes of the Python regexes used by the hacked scanner -/

/-- Python regex `\s` over the ASCII range: space, tab, LF, CR, FF, VT. -/
def isPySpace (c : Char) : Bool :=
  c = ' ' ∨ c = '\t' ∨ c = '\n' ∨ c = '\r' ∨ c = '\x0c' ∨ c = '\x0b'

/-- `[a-zA-Z]`. -/
def isAsciiLetter (c : Char) : Bool :=
  ('a' ≤ c ∧ c ≤ 'z') ∨ ('A' ≤ c ∧ c ≤ 'Z')

/-- `[0-9]`. -/
def isAsciiDigit (c : Char) : Bool :=
  '0' ≤ c ∧ c ≤ '9'

/-- Python `str.lower()` as used on tag/attribute names (ASCII case
folding), implemented directly over the character list so that it reduces
in the kernel (`String.toLower` in core does not). -/
def strToLower (s : String) : String := String.mk (s.data.map Char.toLower)

/-- Body characters of tag and attribute names: `[-.a-zA-Z0-9:_]`.
The source uses the same class in `LOCATESTARTTAGEND` (tag names),
the stdlib `tagfind`/`endtagfind` patterns, and `ATTRFIND` (attribute
names, written `[-.:a-zA-Z_0-9]` there). -/
def isNameBodyChar (c : Char) : Bool :=
  isAsciiLetter c ∨ isAsciiDigit c ∨ c = '-' ∨ c = '.' ∨ c = ':' ∨ c = '_'

/-- First character of an attribute name in `ATTRFIND`: `[a-zA-Z_]`. -/
def isAttrNameStart (c : Char) : Bool :=
  isAsciiLetter c ∨ c = '_'

/-- Bare (unquoted) attribute value characters in `LOCATESTARTTAGEND`:
`[^'">\s]`. -/
def isBareLocate (c : Char) : Bool :=
  ¬ (c = '\'' ∨ c = '"' ∨ c = '>' ∨ isPySpace c)

/-- Bare (unquoted) attribute value characters in `ATTRFIND`:
`[^\s"'=<>` ++ "`" ++ `]`. -/
def isBareAttrfind (c : Char) : Bool :=
  ¬ (isPySpace c ∨ c = '"' ∨ c = '\'' ∨ c = '=' ∨ c = '<' ∨ c = '>' ∨ c = '`')

/-! ### Data model: finished nodes and open (in-progress) elements -/

/-- A finished lxml node as built by the parser: an `Element` (tag,
ordered attributes, leading `.text`, children, `.tail`) or a `Comment`
(which also carries a `.tail`). -/
inductive Node where
  | elem (tag : String) (attrib : List (String × String)) (text : String)
      (children : List Node) (tail : String)
  | comment (data : String) (tail : String)
deriving Repr

/-- An element that is still on the open-element stack.  Its `tail` does not
exist yet (a tail is only ever written to an element that is already a closed
child of the stack top), and its recorded children are the already-closed
ones. -/
structure PElem where
  tag : String
  attrib : List (String × String)
  text : String
  children : List Node
deriving Repr

/-- Failure modes.  `parseError` is `HTMLParser.error`/`HTMLParseError` with
the source's message; `indexError` is a raw Python `IndexError` (list index
out of range), as raised by `self.stack[-1]` on an empty stack. -/
inductive PError where
  | parseError (msg : String)
  | indexError
deriving Repr, DecidableEq

/-- The mutable state of one `OuterHTMLParser` instance.
`rootStarted` is `self.root is not None`; `rootDone` holds the completed
root tree once the bottom stack frame has been popped.  `cdataTag` models
`set_specific_cdata_mode` / `clear_cdata_mode` (the `self.interesting`
regex): `some t` means the tokenizer is in raw-text mode for tag `t`
(stored lowercased; the source regex is compiled with `re.IGNORECASE`). -/
structure PState where
  stack : List PElem
  rootStarted : Bool
  rootDone : Option Node
  retain_case : Bool
  in_svg : Bool
  cdataTag : Option String
deriving Repr

/-- Fresh parser state (`OuterHTMLParser.__init__`). -/
def init (retain_case : Bool) : PState :=
  { stack := [], rootStarted := false, rootDone := none,
    retain_case := retain_case, in_svg := false, cdataTag := none }

/-! ### Class-level tables -/

/-- `OuterHTMLParser.VOID_TAGS`. -/
def VOID_TAGS : List String :=
  ["area", "base", "br", "col", "command", "embed", "hr",
   "img", "input", "keygen", "link", "meta", "param", "source", "track",
   "wbr"]

/-- `OuterHTMLParser.TABLE_ELEMS`. -/
def TABLE_ELEMS : List String := ["tbody", "thead", "tfoot", "colgroup"]

/-- `OuterHTMLParser.AUTOCLOSE_ON_OPEN` as a partial map: the set of tags
whose opening forces the close of an element with the given (lowercased)
tag; `none` when the dict has no entry (the Python `KeyError` branch). -/
def AUTOCLOSE_ON_OPEN (tag : String) : Option (List String) :=
  if tag = "p" then
    some ["address", "article", "aside", "blockquote", "dir", "div",
      "dl", "fieldset", "footer", "form", "h1", "h2", "h3", "h4", "h5",
      "h6", "header", "hr", "menu", "nav", "ol", "p", "pre", "section",
      "table", "ul"]
  else if tag = "tbody" then some TABLE_ELEMS
  else if tag = "thead" then some TABLE_ELEMS
  else if tag = "tfoot" then some TABLE_ELEMS
  else if tag = "colgroup" then some TABLE_ELEMS
  else if tag = "tr" then some ["tr"]
  else if tag = "td" then some ["td", "th"]
  else if tag = "th" then some ["td", "th"]
  else if tag = "dt" then some ["dt", "dd"]
  else if tag = "dd" then some ["dt", "dd"]
  else if tag = "li" then some ["li"]
  else if tag = "option" then some ["option"]
  else none

/-- `OuterHTMLParser.CDATA_CONTENT_ELEMENTS_V2`. -/
def CDATA_CONTENT_ELEMENTS_V2 : List String := ["script", "style"]

/-! ### Tree-builder operations -/

/-- `lxml` dict-style attribute update, one pair at a time: an existing key
keeps its position and gets the new value, a new key is appended.  The
`Option` value models Python `None` (attribute without `=`); `open_tag`
replaces it by `""` (`v or ""`). -/
def setAttr (d : List (String × String)) (k v : String) : List (String × String) :=
  if d.any (fun p => p.1 = k) then
    d.map (fun p => if p.1 = k then (k, v) else p)
  else d ++ [(k, v)]

/-- `new.attrib.update((k, v or "") for k, v in attrs)`. -/
def attribUpdate (d : List (String × String)) :
    List (String × Option String) → List (String × String)
  | [] => d
  | (k, v) :: rest => attribUpdate (setAttr d k (v.getD "")) rest

/-- The walk of `find_autoclose_on_open`, over the stack with the TOP at the
head.  `none` is the source's early `return 0` (the walk reached stack
position 0 and the bottom element was itself an autoclose candidate);
`some n` counts the candidates above the break point, matching
`len(self.stack) - pos - 1` at the `break`. -/
def find_autoclose_aux (ltag : String) : List PElem → Option Nat
  | [] => some 0
  | e :: rest =>
    match AUTOCLOSE_ON_OPEN (strToLower e.tag) with
    | none => some 0
    | some autoclose_tags =>
      if ltag ∈ autoclose_tags then
        match rest with
        | [] => none
        | _ :: _ => (find_autoclose_aux ltag rest).map (· + 1)
      else some 0

/-- `OuterHTMLParser.find_autoclose_on_open`: the number of elements the
subsequent loop will force-close.  Note that the source returns the literal
`0` when its walk reaches stack position 0 with every element a candidate. -/
def find_autoclose_on_open (stack : List PElem) (tag : String) : Nat :=
  (find_autoclose_aux (strToLower tag) stack).getD 0

/-- Completing a popped element: its recorded pieces become an lxml element,
whose `tail` starts out absent (later appends render it as `""` via
`tail or ""`). -/
def finishElem (e : PElem) : Node :=
  .elem e.tag e.attrib e.text e.children ""

/-- `OuterHTMLParser.close_tag`.  The pop transfers the completed element
into the children of the next frame down (see the module comment); when the
popped frame was the bottom of the stack it becomes the finished root
tree. -/
def close_tag (st : PState) (tag : String) (force : Bool) :
    Except PError PState :=
  match st.stack with
  | [] => .error (.parseError ("Unexpected close tag at top of tree: " ++ tag))
  | elem :: rest =>
    if force = false ∧ elem.tag ≠ tag then
      .error (.parseError ("Unexpected close tag: " ++ tag ++ ". Expected: " ++ elem.tag))
    else
      let node := finishElem elem
      let st' : PState :=
        match rest with
        | [] => { st with stack := [], rootDone := some node }
        | parent :: below =>
          { st with stack := { parent with children := parent.children ++ [node] } :: below }
      if elem.tag = "svg" then .ok { st' with in_svg := false } else .ok st'

/-- The loop body of `check_autoclose_on_open`: `close_tag(tag, force=True)`
repeated `n` times. -/
def closeForcedN (tag : String) : Nat → PState → Except PError PState
  | 0, st => .ok st
  | n + 1, st => do closeForcedN tag n (← close_tag st tag true)

/-- `OuterHTMLParser.check_autoclose_on_open`. -/
def check_autoclose_on_open (st : PState) (tag : String) : Except PError PState :=
  closeForcedN tag (find_autoclose_on_open st.stack tag) st

/-- `OuterHTMLParser.open_tag`, part 1: root assignment, the
empty-stack structure check, the autoclose pass, and the push.  (The
source appends the new element to the stack top's children here; that
append is deferred to the matching pop, see the module comment.) -/
def open_tag_push (st : PState) (new : PElem) (tag : String) :
    Except PError PState :=
  if st.rootStarted = false then
    pure { st with rootStarted := true, stack := new :: st.stack }
  else if st.stack.isEmpty then
    Except.error (.parseError ("Unexpected open tag: " ++ tag))
  else do
    let st1 ← check_autoclose_on_open st tag
    pure { st1 with stack := new :: st1.stack }

/-- `OuterHTMLParser.open_tag`: build the new element (attribute values
`v or ""`), push it, then set `in_svg` when the exact (already
case-folded) tag string is `svg`. -/
def open_tag (st : PState) (tag : String) (attrs : List (String × Option String)) :
    Except PError PState := do
  let new : PElem := { tag := tag, attrib := attribUpdate [] attrs, text := "", children := [] }
  let st' ← open_tag_push st new tag
  if tag = "svg" then pure { st' with in_svg := true } else pure st'

/-- `OuterHTMLParser.handle_starttag`.  A void tag is closed again at once
(`close_tag(tag)`, no force: the fresh element is on top, so the tags
match); `script`/`style` switch the tokenizer into raw-text mode
(`set_specific_cdata_mode`). -/
def handle_starttag (st : PState) (tag : String)
    (attrs : List (String × Option String)) : Except PError PState := do
  let ltag := strToLower tag
  let st1 ← open_tag st tag attrs
  let st2 ← if ltag ∈ VOID_TAGS then close_tag st1 tag false else pure st1
  if ltag ∈ CDATA_CONTENT_ELEMENTS_V2 then
    pure { st2 with cdataTag := some ltag }
  else
    pure st2

/-- `OuterHTMLParser.handle_endtag`: a void end tag is ignored outright. -/
def handle_endtag (st : PState) (tag : String) : Except PError PState :=
  if strToLower tag ∈ VOID_TAGS then .ok st else close_tag st tag false

/-- `OuterHTMLParser.handle_startendtag` (`<tag ... />`). -/
def handle_startendtag (st : PState) (tag : String)
    (attrs : List (String × Option String)) : Except PError PState := do
  close_tag (← open_tag st tag attrs) tag false

/-- `(elem[-1].tail or "") + data` on the last node of a child list. -/
def addTail (data : String) : Node → Node
  | .elem t a x c tl => .elem t a x c (tl ++ data)
  | .comment d tl => .comment d (tl ++ data)

/-- Append `data` to the tail of the last element of a child list. -/
def appendTailLast (data : String) : List Node → List Node
  | [] => []
  | [n] => [addTail data n]
  | n :: ns => n :: appendTailLast data ns

/-- `OuterHTMLParser.handle_data`: discarded on an empty stack, otherwise
appended to the last child's tail when the stack top has children
(`len(elem)`), else to the top's own leading text.  Never fails. -/
def handle_data (st : PState) (data : String) : PState :=
  match st.stack with
  | [] => st
  | elem :: rest =>
    if elem.children.isEmpty then
      { st with stack := { elem with text := elem.text ++ data } :: rest }
    else
      { st with stack := { elem with children := appendTailLast data elem.children } :: rest }

/-- `OuterHTMLParser.handle_comment`: reads `self.stack[-1]` with no
emptiness guard, so an empty stack raises a bare `IndexError`. -/
def handle_comment (st : PState) (data : String) : Except PError PState :=
  match st.stack with
  | [] => .error .indexError
  | elem :: rest =>
    .ok { st with stack := { elem with children := elem.children ++ [.comment data ""] } :: rest }

/-- `OuterHTMLParser.should_retain_case` (default argument `tag=None` is
`none` here; `None == "svg"` is false in Python). -/
def should_retain_case (st : PState) (tag : Option String) : Bool :=
  st.retain_case || st.in_svg || tag == some "svg"

/-! ### The view of the tree through `self.root`

`parse_html` returns `parser.root`, the mutable object set at the first
open.  Reconstructing its current value from this functional state:
fold every still-open frame into its parent (the bottom frame is the
root), or take the finished tree if the root was closed, or nothing if no
element was ever opened. -/

/-- Fold the open frames above the bottom of the stack into their parents. -/
def collapse (e : PElem) : List PElem → Node
  | [] => finishElem e
  | f :: rest => collapse { f with children := f.children ++ [finishElem e] } rest

/-- Current value of `self.root` (as a tree), `none` when `self.root is None`. -/
def currentRoot (st : PState) : Option Node :=
  match st.stack with
  | e :: rest => some (collapse e rest)
  | [] => st.rootDone

/-! ### Tokenizer events (the builder-facing interface)

The stdlib tokenizer delivers start-tag / end-tag / text / comment events;
`parse_starttag` and `parse_endtag` (both overridden in the source) apply
the case-folding policy before calling the `handle_*` methods.  These two
wrappers model exactly that folding layer, taking the raw captured names. -/

/-- The case-folding performed by the hacked `parse_starttag` on one
captured start tag: `should_retain_case()` (no argument) picks the final
tag, `should_retain_case(final_tag)` picks attribute-name folding, then
dispatch to `handle_startendtag` for `/>` or `handle_starttag`. -/
def processStartTag (st : PState) (raw : String)
    (attrs : List (String × Option String)) (selfClosing : Bool) :
    Except PError PState :=
  let tag := strToLower raw
  let final_tag := if should_retain_case st none then raw else tag
  let attrs' :=
    if should_retain_case st (some final_tag) then attrs
    else attrs.map (fun p => (strToLower p.1, p.2))
  if selfClosing then handle_startendtag st final_tag attrs'
  else handle_starttag st final_tag attrs'

/-- The case folding and mode clearing performed by the hacked
`parse_endtag` on one captured end tag name (`clear_cdata_mode` runs after
`handle_endtag`). -/
def processEndTag (st : PState) (raw : String) : Except PError PState := do
  let tag := if should_retain_case st none then raw else strToLower raw
  let st1 ← handle_endtag st tag
  pure { st1 with cdataTag := none }

/-- One tokenizer event. -/
inductive Ev where
  | start (raw : String) (attrs : List (String × Option String))
  | startend (raw : String) (attrs : List (String × Option String))
  | endtag (raw : String)
  | text (data : String)
  | comment (data : String)

/-- Feed one event to the builder. -/
def step (st : PState) : Ev → Except PError PState
  | .start raw attrs => processStartTag st raw attrs false
  | .startend raw attrs => processStartTag st raw attrs true
  | .endtag raw => processEndTag st raw
  | .text data => .ok (handle_data st data)
  | .comment data => handle_comment st data

/-- Feed a list of events. -/
def run (st : PState) : List Ev → Except PError PState
  | [] => .ok st
  | ev :: evs => do run (← step st ev) evs

/-! ### Tag Scanner: the hacked regexes as deterministic scanners

`LOCATESTARTTAGEND` and `ATTRFIND` are ordinary backtracking regexes, but
on these patterns a deterministic greedy (PEG-style) scan is equivalent:
every alternation has disjoint first characters, every optional group that
fails to match falls back to the empty match without disturbing what came
before, and greedy character-class runs are never shortened by what
follows.  The scanners work on `List Char` suffixes; an index `m.end()` is
recovered as the number of consumed characters. -/

/-- The value alternatives of `LOCATESTARTTAGEND`:
`'[^']*'` | `"[^"]*"` | `[^'">\s]+` (bare, at least one char).
Returns the rest after the value, or `none` when no alternative matches. -/
def lstValue : List Char → Option (List Char)
  | '\'' :: cs =>
    let v := cs.takeWhile (fun c => c ≠ '\'')
    (match cs.drop v.length with
     | '\'' :: r => some r
     | _ => none)
  | '"' :: cs =>
    let v := cs.takeWhile (fun c => c ≠ '"')
    (match cs.drop v.length with
     | '"' :: r => some r
     | _ => none)
  | cs =>
    let v := cs.takeWhile isBareLocate
    if v.isEmpty then none else some (cs.drop v.length)

/-- One iteration of the attribute group of `LOCATESTARTTAGEND`:
`\s+` then (attribute-with-optional-value | `\?` | `"=""`).
When the optional `\s*=\s*value` part fails, the group backtracks to the
empty match, leaving the position right after the attribute name. -/
def lstAttrIter (cs : List Char) : Option (List Char) :=
  match cs with
  | [] => none
  | c :: rest =>
    if isPySpace c then
      match rest.dropWhile isPySpace with
      | [] => none
      | d :: rest1 =>
        if isAttrNameStart d then
          let afterName := rest1.dropWhile isNameBodyChar
          (match afterName.dropWhile isPySpace with
           | '=' :: cs3 =>
             (match lstValue (cs3.dropWhile isPySpace) with
              | some r => some r
              | none => some afterName)
           | _ => some afterName)
        else if d = '?' then some rest1
        else if d = '"' then
          (match rest1 with
           | '=' :: '"' :: '"' :: r => some r
           | _ => none)
        else none
    else none

/-- The starred attribute group: iterate `lstAttrIter` while it matches.
Each iteration consumes at least the `\s+` character, so `cs.length` steps
of fuel always suffice. -/
def lstAttrs : Nat → List Char → List Char
  | 0, cs => cs
  | fuel + 1, cs =>
    match lstAttrIter cs with
    | some r => lstAttrs fuel r
    | none => cs

/-- `OuterHTMLParser.LOCATESTARTTAGEND`, matched at the start of `cs`:
tag name, attribute iterations, trailing whitespace.  Returns the suffix
after `m.end()`, or `none` when the pattern does not match (only possible
when `cs` does not begin with `<` + letter). -/
def locatestarttagend (cs : List Char) : Option (List Char) :=
  match cs with
  | '<' :: c :: rest =>
    if isAsciiLetter c then
      let afterName := rest.dropWhile isNameBodyChar
      let afterAttrs := lstAttrs afterName.length afterName
      some (afterAttrs.dropWhile isPySpace)
    else none
  | _ => none

/-- Result of `check_for_whole_start_tag`: `-1` (incomplete), an end
offset, or a fatal `self.error`. -/
inductive ScanResult where
  | incomplete
  | complete (endpos : Nat)
  | fatal (msg : String)
deriving Repr, DecidableEq

/-- The hacked `OuterHTMLParser.check_for_whole_start_tag`, on the buffer
suffix `cs = rawdata[i:]`; `complete e` is a return of `i + e`.  Notes:
the source's `next == "/"` branch returns `j + 2` for `/>` and otherwise
always `-1` (its `self.error("malformed empty start tag")` line is dead,
because `rawdata.startswith("/", j)` is true whenever `next == "/"`); the
final membership test admits ASCII letters and `=` (its `/` is already
handled); a regex mismatch is the source's `AssertionError`. -/
def check_for_whole_start_tag (cs : List Char) : ScanResult :=
  match locatestarttagend cs with
  | none => .fatal "we should not get here!"
  | some rest =>
    let j := cs.length - rest.length
    match rest with
    | [] => .incomplete
    | '>' :: _ => .complete (j + 1)
    | '/' :: rest' =>
      (match rest' with
       | '>' :: _ => .complete (j + 2)
       | _ => .incomplete)
    | c :: _ =>
      if isAsciiLetter c ∨ c = '=' then .incomplete
      else .fatal "malformed start tag"

/-- A match of the hacked `ATTRFIND`: captured name (group 1), captured
value text (group 3, `none` when the whole `\s*=\s*...` group is absent —
Python's `if not rest`), and the suffix after `m.end()`. -/
structure AttrMatch where
  name : String
  value : Option String
  rest : List Char
deriving Repr

/-- Group 3 of `ATTRFIND`: `'[^']*'` | `"[^"]*"` | bare run (possibly
empty).  An unterminated quote falls back to the bare alternative, which
matches the empty string at a quote character. -/
def attrValueMatch (cs : List Char) : String × List Char :=
  match cs with
  | '\'' :: cs1 =>
    let v := cs1.takeWhile (fun c => c ≠ '\'')
    (match cs1.drop v.length with
     | '\'' :: r => (String.mk ('\'' :: (v ++ ['\''])), r)
     | _ => ("", cs))
  | '"' :: cs1 =>
    let v := cs1.takeWhile (fun c => c ≠ '"')
    (match cs1.drop v.length with
     | '"' :: r => (String.mk ('"' :: (v ++ ['"'])), r)
     | _ => ("", cs))
  | _ =>
    let v := cs.takeWhile isBareAttrfind
    (String.mk v, cs.drop v.length)

/-- The optional `(\s*=\s*(value))?` part of `ATTRFIND` after a captured
name; without `=` the group is absent and `m.end()` sits right after the
name. -/
def attrfindAfterName (name : String) (cs : List Char) : AttrMatch :=
  match cs.dropWhile isPySpace with
  | '=' :: cs2 =>
    let vr := attrValueMatch (cs2.dropWhile isPySpace)
    { name := name, value := some vr.1, rest := vr.2 }
  | _ => { name := name, value := none, rest := cs }

/-- The hacked `OuterHTMLParser.ATTRFIND` matched at the start of `cs`:
`\s*` then a name (`[a-zA-Z_][-.:a-zA-Z_0-9]*` | `\?` | `\"`), then the
optional value group. -/
def attrfind (cs : List Char) : Option AttrMatch :=
  match cs.dropWhile isPySpace with
  | [] => none
  | c :: rest =>
    if isAttrNameStart c then
      let nameBody := rest.takeWhile isNameBodyChar
      some (attrfindAfterName (String.mk (c :: nameBody)) (rest.drop nameBody.length))
    else if c = '?' then some (attrfindAfterName "?" rest)
    else if c = '"' then some (attrfindAfterName "\"" rest)
    else none

/-! ### Character-reference decoding

`self.unescape` lives in the external stdlib tokenizer
(`HTMLParser.unescape`); the entity table `htmlentitydefs.name2codepoint`
is stdlib data.  Modelled from the spec: "Quoted attribute values ... have
... HTML character references decoded" — the `&`-free fast path is the
stdlib's own first line (`if '&' not in s: return s`), numeric references
follow its `replaceEntities`, and the named-entity table is restricted to
the core entities (no claim exercises any entity). -/

/-- Core of the stdlib entity table (`apos` is added by `HTMLParser`
itself). -/
def entitydefsCore : List (String × String) :=
  [("apos", "'"), ("amp", "&"), ("lt", "<"), ("gt", ">"), ("quot", "\"")]

/-- `[0-9a-fA-F]`. -/
def isHexDigit (c : Char) : Bool :=
  isAsciiDigit c ∨ ('a' ≤ c ∧ c ≤ 'f') ∨ ('A' ≤ c ∧ c ≤ 'F')

/-- `\w` over ASCII. -/
def isWordChar (c : Char) : Bool :=
  isAsciiLetter c ∨ isAsciiDigit c ∨ c = '_'

def hexDigitVal (c : Char) : Nat :=
  if isAsciiDigit c then c.toNat - '0'.toNat
  else if 'a' ≤ c ∧ c ≤ 'f' then c.toNat - 'a'.toNat + 10
  else c.toNat - 'A'.toNat + 10

def parseHexNat (cs : List Char) : Option Nat :=
  if cs.isEmpty ∨ cs.any (fun c => ¬ isHexDigit c) then none
  else some (cs.foldl (fun n c => n * 16 + hexDigitVal c) 0)

def parseDecNat (cs : List Char) : Option Nat :=
  if cs.isEmpty ∨ cs.any (fun c => ¬ isAsciiDigit c) then none
  else some (cs.foldl (fun n c => n * 10 + (c.toNat - '0'.toNat)) 0)

/-- Match the charref body `#?[xX]?(?:[0-9a-fA-F]+|\w{1,8})` followed by
`;`; returns the captured body and the suffix after the `;`. -/
def charrefBody (cs : List Char) : Option (List Char × List Char) :=
  let pre : List Char × List Char :=
    match cs with
    | '#' :: 'x' :: rest => (['#', 'x'], rest)
    | '#' :: 'X' :: rest => (['#', 'X'], rest)
    | '#' :: rest => (['#'], rest)
    | 'x' :: rest => (['x'], rest)
    | 'X' :: rest => (['X'], rest)
    | rest => ([], rest)
  let hexRun := pre.2.takeWhile isHexDigit
  match pre.2.drop hexRun.length with
  | ';' :: r =>
    if hexRun.isEmpty then none else some (pre.1 ++ hexRun, r)
  | _ =>
    let w8 := (pre.2.takeWhile isWordChar).take 8
    (match pre.2.drop w8.length with
     | ';' :: r => if w8.isEmpty then none else some (pre.1 ++ w8, r)
     | _ => none)

/-- `replaceEntities` of the stdlib `unescape`: numeric references are
decoded (`int(...)` failures keep the literal text), names are looked up
in the entity table (unknown names kept literally). -/
def replaceEntity (body : List Char) : String :=
  let literal := "&" ++ String.mk body ++ ";"
  match body with
  | '#' :: rest =>
    let hx : Bool × List Char :=
      match rest with
      | 'x' :: ds => (true, ds)
      | 'X' :: ds => (true, ds)
      | _ => (false, rest)
    (match (if hx.1 then parseHexNat hx.2 else parseDecNat hx.2) with
     | some n => if n < 1114112 then String.mk [Char.ofNat n] else literal
     | none => literal)
  | _ =>
    (match entitydefsCore.lookup (String.mk body) with
     | some repl => repl
     | none => literal)

/-- The substitution scan of `unescape`; fuel is the buffer length (each
step consumes at least one character). -/
def unescapeChars : Nat → List Char → List Char
  | 0, cs => cs
  | _ + 1, [] => []
  | fuel + 1, '&' :: rest =>
    (match charrefBody rest with
     | some (body, r) => (replaceEntity body).data ++ unescapeChars fuel r
     | none => '&' :: unescapeChars fuel rest)
  | fuel + 1, c :: rest => c :: unescapeChars fuel rest

/-- Stdlib `HTMLParser.unescape`. -/
def unescape (s : String) : String :=
  if s.data.contains '&' then String.mk (unescapeChars s.data.length s.data) else s

/-! ### The hacked `parse_starttag` and `parse_endtag` -/

/-- The value post-processing in `parse_starttag`: a quoted value
(`attrvalue[:1] == quote == attrvalue[-1:]`) is stripped of its quotes and
unescaped; a bare value is kept verbatim. -/
def processAttrValue (v : String) : String :=
  if (v.take 1 = "'" ∧ v.takeRight 1 = "'") ∨ (v.take 1 = "\"" ∧ v.takeRight 1 = "\"") then
    unescape ((v.drop 1).dropRight 1)
  else v

/-- The `while k < endpos` attribute loop of `parse_starttag`.  A match
whose captured name is the artifact token `?` or `"` is consumed and
discarded (the IE and Chrome hack); otherwise the name is case-folded per
`should_retain_case(final_tag)` and the pair recorded.  Every match
consumes at least one character, so `endpos + 1` steps of fuel always
suffice. -/
def attrLoop : Nat → List Char → Nat → Nat → Bool → List (String × Option String) →
    List (String × Option String) × Nat
  | 0, _, _, k, _, acc => (acc, k)
  | fuel + 1, rawdata, endpos, k, retainAttrs, acc =>
    if k < endpos then
      match attrfind (rawdata.drop k) with
      | none => (acc, k)
      | some m =>
        let consumed := (rawdata.drop k).length - m.rest.length
        let k' := k + consumed
        if m.name = "?" ∨ m.name = "\"" then
          attrLoop fuel rawdata endpos k' retainAttrs acc
        else
          let attrvalue := m.value.map processAttrValue
          let name' := if retainAttrs then m.name else strToLower m.name
          attrLoop fuel rawdata endpos k' retainAttrs (acc ++ [(name', attrvalue)])
    else (acc, k)

/-- Python `str.strip()`. -/
def pyStrip (cs : List Char) : List Char :=
  ((cs.dropWhile isPySpace).reverse.dropWhile isPySpace).reverse

/-- The hacked `OuterHTMLParser.parse_starttag` at offset `i`:
`check_for_whole_start_tag`, the stdlib `tagfind` name capture, the
case-folding hack for the tag, the `ATTRFIND` loop with artifact
discarding, the junk-character check on `rawdata[k:endpos]`, and dispatch
to `handle_startendtag` (`/>`) or `handle_starttag`.  `ok none` is the
source's `-1` (incomplete).  (`self.lasttag` and the stdlib
`CDATA_CONTENT_ELEMENTS` check are dead state here: the class sets that
table to the empty tuple.) -/
def parse_starttag (st : PState) (rawdata : List Char) (i : Nat) :
    Except PError (Option (Nat × PState)) :=
  match check_for_whole_start_tag (rawdata.drop i) with
  | .incomplete => .ok none
  | .fatal msg => .error (.parseError msg)
  | .complete endCount =>
    let endpos := i + endCount
    match rawdata.drop (i + 1) with
    | [] => .error (.parseError "unexpected call to parse_starttag()")
    | c :: rest =>
      if isAsciiLetter c then
        let nameBody := rest.takeWhile isNameBodyChar
        let k := i + 2 + nameBody.length
        let rawTag := String.mk (c :: nameBody)
        let tag := strToLower rawTag
        let final_tag := if should_retain_case st none then rawTag else tag
        let retainAttrs := should_retain_case st (some final_tag)
        let scanned := attrLoop (endpos + 1) rawdata endpos k retainAttrs []
        let endText := pyStrip ((rawdata.drop scanned.2).take (endpos - scanned.2))
        if endText ≠ ['>'] ∧ endText ≠ ['/', '>'] then
          .error (.parseError ("junk characters in start tag: "
            ++ String.mk ((rawdata.drop scanned.2).take (endpos - scanned.2))))
        else
          (match (if endText = ['/', '>'] then handle_startendtag st final_tag scanned.1
                  else handle_starttag st final_tag scanned.1) with
           | .ok st' => .ok (some (endpos, st'))
           | .error e => .error e)
      else .error (.parseError "unexpected call to parse_starttag()")

/-- Index of the first `>` (the stdlib `endendtag` search). -/
def findGtIdx : List Char → Option Nat
  | [] => none
  | '>' :: _ => some 0
  | _ :: rest => (findGtIdx rest).map (· + 1)

/-- The stdlib `endtagfind` pattern `</\s*([a-zA-Z][-.a-zA-Z0-9:_]*)\s*>`
matched at the start of `cs`; returns the captured raw tag name. -/
def endtagfindMatch (cs : List Char) : Option String :=
  match cs with
  | '<' :: '/' :: rest =>
    (match rest.dropWhile isPySpace with
     | [] => none
     | c :: rest2 =>
       if isAsciiLetter c then
         let body := rest2.takeWhile isNameBodyChar
         (match (rest2.drop body.length).dropWhile isPySpace with
          | '>' :: _ => some (String.mk (c :: body))
          | _ => none)
       else none)
  | _ => none

/-- The hacked `OuterHTMLParser.parse_endtag` on the suffix `cs =
rawdata[i:]` (beginning with `</`): find the first `>`, match
`endtagfind`, apply the end-tag case hack, call `handle_endtag`, then
`clear_cdata_mode`.  `ok none` is the source's `-1`. -/
def parse_endtag (st : PState) (cs : List Char) : Except PError (Option (Nat × PState)) :=
  match findGtIdx (cs.drop 1) with
  | none => .ok none
  | some grel =>
    let j := grel + 2
    match endtagfindMatch cs with
    | none => .error (.parseError ("bad end tag: " ++ String.mk (cs.take j)))
    | some rawname =>
      let tag := if should_retain_case st none then rawname else strToLower rawname
      match handle_endtag st tag with
      | .ok st1 => .ok (some (j, { st1 with cdataTag := none }))
      | .error e => .error e

/-! ### The feeding loop

Modelled from the spec: the chunk-feeding loop itself (`HTMLParser.feed` /
`goahead`) is inherited from the external stdlib tokenizer and is not part
of `src/`; §4.5 specifies it as "drives tokenizer+builder over a fragment
(single-shot or incrementally fed)" and "buffers any trailing partial
tag/text across chunk boundaries (the Tag Scanner's 'incomplete' signal
drives this)".  The model consumes one construct at a time from the front
of the buffer, dispatching `<`+letter to the source's `parse_starttag`,
`</` to the source's `parse_endtag`, `<!--` to a comment event, other
`<!...`/`<?...` constructs to event-free consumption (`handle_decl` /
`handle_pi` are no-ops), and anything else to text; an incomplete
construct is left in the buffer.  In raw-text mode (§4.3) everything up to
the matching case-insensitive end tag is text, and a trailing fragment
that could still grow into that end tag is buffered.  Entity references
inside text are not modelled (the spec's event alphabet is open / close /
text / comment only). -/

/-- `xs` is a case-insensitive prefix of `pat`. -/
def ciPrefixOf : List Char → List Char → Bool
  | [], _ => true
  | _ :: _, [] => false
  | x :: xs, p :: ps => x.toLower = p.toLower ∧ ciPrefixOf xs ps

/-- Index of the first case-insensitive occurrence of `pat`. -/
def findCI (pat : List Char) : List Char → Option Nat
  | [] => none
  | c :: rest =>
    if ciPrefixOf pat (c :: rest) then some 0
    else (findCI pat rest).map (· + 1)

def holdbackGo (pat b : List Char) : Nat → Nat
  | 0 => 0
  | k + 1 =>
    if ciPrefixOf (b.drop (b.length - (k + 1))) pat then k + 1
    else holdbackGo pat b k

/-- Length of the longest suffix of `b` (shorter than `pat`) that is a
case-insensitive prefix of `pat`: the raw-text holdback at a chunk
boundary. -/
def holdback (pat b : List Char) : Nat :=
  holdbackGo pat b (min b.length (pat.length - 1))

/-- The comment terminator `--\s*>` anchored at the head; returns the
match length. -/
def matchCommentCloseAt (cs : List Char) : Option Nat :=
  match cs with
  | '-' :: '-' :: rest =>
    let ws := rest.takeWhile isPySpace
    (match rest.drop ws.length with
     | '>' :: _ => some (2 + ws.length + 1)
     | _ => none)
  | _ => none

/-- Leftmost match of `--\s*>`: start index and one-past-the-end index. -/
def searchCommentClose : List Char → Option (Nat × Nat)
  | [] => none
  | c :: rest =>
    match matchCommentCloseAt (c :: rest) with
    | some len => some (0, len)
    | none => (searchCommentClose rest).map (fun p => (p.1 + 1, p.2 + 1))

/-- Outcome of consuming one construct from the front of the buffer. -/
inductive StepOut where
  | incomplete
  | step (st : PState) (rest : List Char)
  | fail (e : PError)

/-- One construct in normal mode. -/
def normalStep (st : PState) (b : List Char) : StepOut :=
  let pre := b.takeWhile (fun c => c ≠ '<')
  if ¬ pre.isEmpty then
    .step (handle_data st (String.mk pre)) (b.drop pre.length)
  else
    match b with
    | [] => .incomplete
    | [_] => .incomplete
    | _ :: c :: rest =>
      if isAsciiLetter c then
        (match parse_starttag st b 0 with
         | .ok none => .incomplete
         | .ok (some (endpos, st')) => .step st' (b.drop endpos)
         | .error e => .fail e)
      else if c = '/' then
        (match parse_endtag st b with
         | .ok none => .incomplete
         | .ok (some (j, st')) => .step st' (b.drop j)
         | .error e => .fail e)
      else if c = '!' then
        (match rest with
         | [] => .incomplete
         | ['-'] => .incomplete
         | '-' :: '-' :: body =>
           (match searchCommentClose body with
            | none => .incomplete
            | some se =>
              (match handle_comment st (String.mk (body.take se.1)) with
               | .ok st' => .step st' (body.drop se.2)
               | .error err => .fail err))
         | _ =>
           (match findGtIdx rest with
            | none => .incomplete
            | some g => .step st (b.drop (2 + g + 1))))
      else if c = '?' then
        (match findGtIdx rest with
         | none => .incomplete
         | some g => .step st (b.drop (2 + g + 1)))
      else
        .step (handle_data st "<") (b.drop 1)

/-- One construct in raw-text mode for tag `t`. -/
def cdataStep (st : PState) (t : String) (b : List Char) : StepOut :=
  let pat := '<' :: '/' :: t.data
  match findCI pat b with
  | some idx =>
    if idx = 0 then
      (match parse_endtag st b with
       | .ok none => .incomplete
       | .ok (some (j, st')) => .step st' (b.drop j)
       | .error e => .fail e)
    else
      .step (handle_data st (String.mk (b.take idx))) (b.drop idx)
  | none =>
    let keep := holdback pat b
    if b.length - keep = 0 then .incomplete
    else
      .step (handle_data st (String.mk (b.take (b.length - keep))))
        (b.drop (b.length - keep))

/-- One construct, dispatching on the raw-text mode. -/
def nextStep (st : PState) (b : List Char) : StepOut :=
  match st.cdataTag with
  | some t => cdataStep st t b
  | none => normalStep st b

/-- Consume constructs until the buffer is exhausted or incomplete.  Every
step consumes at least one character, so `b.length + 1` fuel suffices. -/
def drain : Nat → PState → List Char → Except PError (PState × List Char)
  | 0, st, b => .ok (st, b)
  | fuel + 1, st, b =>
    match nextStep st b with
    | .incomplete => .ok (st, b)
    | .fail e => .error e
    | .step st' b' => drain fuel st' b'

/-- One parser instance together with its unconsumed input buffer
(`self.rawdata`). -/
structure Driver where
  st : PState
  buf : List Char
deriving Repr

/-- `parser.feed(s)`: append to the buffer, then consume. -/
def feed (d : Driver) (s : String) : Except PError Driver :=
  let b := d.buf ++ s.data
  (drain (b.length + 1) d.st b).map (fun p => { st := p.1, buf := p.2 })

/-- Feed successive chunks to one parser instance. -/
def feedChunks (retain_case : Bool) (chunks : List String) : Except PError Driver :=
  chunks.foldlM feed { st := init retain_case, buf := [] }

/-- `mirrordom.parser.parse_html`: one feed, re-raise any
`HTMLParseError`, and return `parser.root` (its docstring: "Returns None
if no HTML detected"). -/
def parse_html (html : String) (retain_case : Bool) : Except PError (Option Node) :=
  (feed { st := init retain_case, buf := [] } html).map (fun d => currentRoot d.st)

/-- The most recently completed node at the insertion point: the last
closed child of the stack top, or the finished root when the stack is
empty. -/
def lastAdded (st : PState) : Option Node :=
  match st.stack with
  | [] => st.rootDone
  | e :: _ => e.children.getLast?

/-! ## Supporting lemmas -/

theorem drain_step (fuel : Nat) (st : PState) (b : List Char) (st' : PState)
    (b' : List Char) (h : nextStep st b = .step st' b') :
    drain (fuel + 1) st b = drain fuel st' b' := by
  have e1 : drain (fuel + 1) st b =
      (match nextStep st b with
       | .incomplete => .ok (st, b)
       | .fail er => .error er
       | .step st2 b2 => drain fuel st2 b2) := rfl
  rw [e1, h]

theorem drain_nil (fuel : Nat) (st : PState) :
    drain fuel st [] = .ok (st, []) := by
  cases fuel with
  | zero => rfl
  | succ n =>
    unfold drain nextStep
    cases h : st.cdataTag with
    | none => rfl
    | some t => simp [cdataStep, findCI, holdback, holdbackGo]

theorem close_tag_stack_tags (st : PState) (tag : String) (force : Bool)
    (st' : PState) (h : close_tag st tag force = .ok st') :
    st'.stack.map (fun e => e.tag) = (st.stack.map (fun e => e.tag)).tail := by
  unfold close_tag at h
  cases hs : st.stack with
  | nil => rw [hs] at h; exact absurd h (by simp)
  | cons e rest =>
    rw [hs] at h
    simp only at h
    by_cases hc : force = false ∧ e.tag ≠ tag
    · rw [if_pos hc] at h; exact absurd h (by simp)
    · rw [if_neg hc] at h
      cases rest with
      | nil =>
        simp only at h
        split at h <;> (injection h with h'; subst h'; simp)
      | cons parent below =>
        simp only at h
        split at h <;> (injection h with h'; subst h'; simp)

theorem closeForcedN_stack_tags (tag : String) (n : Nat) (st st' : PState)
    (h : closeForcedN tag n st = .ok st') :
    st'.stack.map (fun e => e.tag) = (st.stack.map (fun e => e.tag)).drop n := by
  induction n generalizing st with
  | zero =>
    unfold closeForcedN at h
    injection h with h'; subst h'; simp
  | succ m ih =>
    unfold closeForcedN at h
    cases h1 : close_tag st tag true with
    | error e => rw [h1] at h; exact absurd h (by simp [Bind.bind, Except.bind])
    | ok st1 =>
      rw [h1] at h
      simp only [Bind.bind, Except.bind] at h
      rw [ih st1 h, close_tag_stack_tags st tag true st1 h1, ← List.drop_one,
        List.drop_drop, Nat.add_comm]

theorem find_autoclose_aux_cons (ltag : String) (e : PElem) (rest : List PElem) :
    find_autoclose_aux ltag (e :: rest) =
      match AUTOCLOSE_ON_OPEN (strToLower e.tag) with
      | none => some 0
      | some autoclose_tags =>
        if ltag ∈ autoclose_tags then
          match rest with
          | [] => none
          | _ :: _ => (find_autoclose_aux ltag rest).map (· + 1)
        else some 0 := by
  cases rest <;> rfl

/-! ## Claims -/

/-- C1 (counterexample): the claim asserts that when the autoclose walk
reaches stack position 0 with every visited element a forced-close
candidate, the entire stack — root included — is force-closed before the
new element is inserted (example: stack `[p]`, new `p`).  In the source,
that path is `return 0`: `find_autoclose_on_open` reports zero elements
to close, nothing is popped, and the new `p` is nested inside the old
one, so `<p><p>` yields a `p` whose child is a `p`. -/
theorem C1_counterexample :
    find_autoclose_on_open
      [{ tag := "p", attrib := [], text := "", children := [] }] "p" = 0 ∧
    parse_html "<p><p>" false =
      .ok (some (.elem "p" [] "" [.elem "p" [] "" [] ""] "")) :=
  ⟨rfl, rfl⟩

/-- C1 (amended): when the walk visits every stack element down to
position 0 and finds each one a forced-close candidate, the source
returns the literal `0`, so NO element is force-closed: the stack is left
intact and the new element is inserted below the existing ones. -/
theorem C1_walk_to_bottom_closes_nothing (stack : List PElem) (tag : String)
    (hne : stack ≠ [])
    (hall : ∀ e ∈ stack, ∃ s, AUTOCLOSE_ON_OPEN (strToLower e.tag) = some s ∧
      strToLower tag ∈ s) :
    find_autoclose_on_open stack tag = 0 := by
  suffices haux : find_autoclose_aux (strToLower tag) stack = none by
    unfold find_autoclose_on_open
    rw [haux]; rfl
  induction stack with
  | nil => exact absurd rfl hne
  | cons e rest ih =>
    obtain ⟨s, hs, hmem⟩ := hall e (by simp)
    rw [find_autoclose_aux_cons, hs]
    simp only [if_pos hmem]
    cases rest with
    | nil => rfl
    | cons f rest' =>
      rw [ih (by simp) (fun x hx => hall x (by simp [hx]))]
      rfl

/-- C1 (witness): the amended theorem at stack `[p]`, new tag `p`. -/
theorem C1_walk_to_bottom_closes_nothing_witness :
    (([{ tag := "p", attrib := [], text := "", children := [] }] : List PElem) ≠ []) ∧
    find_autoclose_on_open
      [{ tag := "p", attrib := [], text := "", children := [] }] "p" = 0 := by
  refine ⟨by simp, C1_walk_to_bottom_closes_nothing _ "p" (by simp) ?_⟩
  intro e he
  rw [List.mem_singleton] at he
  subst he
  refine ⟨_, rfl, ?_⟩
  decide

/-- C2 (counterexample): the claim asserts that parsing text with no tag
fails with `EmptyDocumentError`.  The source has no such error: on
`"hello"` the parse succeeds and `parse_html` returns `None`
(`parser.root` was never set), exactly as its docstring says ("Returns
None if no HTML detected"). -/
theorem C2_counterexample : parse_html "hello" false = .ok none := rfl

/-- C2 (amended): for every input text containing no `<` (so no tag is
ever opened), `parse_html` returns successfully with no root (`None`)
rather than failing. -/
theorem C2_no_tags_returns_none (s : String) (rc : Bool)
    (h : ∀ c ∈ s.data, c ≠ '<') :
    parse_html s rc = .ok none := by
  unfold parse_html feed
  cases hd : s.data with
  | nil => rfl
  | cons c rest =>
    have hpre : (c :: rest).takeWhile (fun x => decide (x ≠ '<')) = c :: rest := by
      apply List.takeWhile_eq_self_iff.mpr
      intro x hx
      simpa using h x (by rw [hd]; exact hx)
    have hstep : nextStep (init rc) (c :: rest) = .step (init rc) [] := by
      show normalStep (init rc) (c :: rest) = .step (init rc) []
      simp only [normalStep]
      rw [hpre]
      rw [if_pos (by simp)]
      rw [List.drop_length]
      rfl
    simp only [List.nil_append, List.length_cons]
    rw [drain_step _ _ _ _ _ hstep, drain_nil]
    rfl

/-- C2 (witness): the amended theorem at `"hello"`. -/
theorem C2_no_tags_returns_none_witness :
    (∀ c ∈ "hello".data, c ≠ '<') ∧ parse_html "hello" false = .ok none :=
  ⟨by decide, C2_no_tags_returns_none "hello" false (by decide)⟩

/-- C3 (counterexample): the claim asserts that with nested `svg`
elements, closing the inner one leaves `insideForeignContent` true.  In
the source, `close_tag` clears `in_svg` whenever the popped element's tag
is the exact string `svg`: after `<svg><svg></svg>` the outer `svg` is
still open yet `in_svg` is already false. -/
theorem C3_counterexample :
    (feed { st := init false, buf := [] } "<svg><svg></svg>").map
      (fun d => (d.st.in_svg, d.st.stack.map (fun e => e.tag))) =
    .ok (false, ["svg"]) := rfl

/-- C3 (amended): closing any stack top whose tag is literally `svg`
unconditionally sets `in_svg` to false — the flag does not nest with the
stack, so an inner `svg` close clears it even while an outer `svg`
remains open. -/
theorem C3_close_svg_clears_flag (st : PState) (tag : String) (force : Bool)
    (st' : PState)
    (htop : st.stack.head?.map (fun e => e.tag) = some "svg")
    (h : close_tag st tag force = .ok st') :
    st'.in_svg = false := by
  unfold close_tag at h
  cases hs : st.stack with
  | nil => rw [hs] at htop; simp at htop
  | cons e rest =>
    rw [hs] at htop
    simp only [List.head?_cons, Option.map_some', Option.some.injEq] at htop
    rw [hs] at h
    simp only at h
    by_cases hc : force = false ∧ e.tag ≠ tag
    · rw [if_pos hc] at h; exact absurd h (by simp)
    · rw [if_neg hc] at h
      rw [if_pos htop] at h
      injection h with h'
      subst h'
      rfl

/-- C3 (witness): the amended theorem at a state with two open `svg`
frames (outer beneath inner), closing the inner one. -/
theorem C3_close_svg_clears_flag_witness :
    ((PState.mk [⟨"svg", [], "", []⟩, ⟨"svg", [], "", []⟩] true none false true
        none).stack.head?.map (fun e => e.tag) = some "svg") ∧
    close_tag
      (PState.mk [⟨"svg", [], "", []⟩, ⟨"svg", [], "", []⟩] true none false true none)
      "svg" false =
      .ok (PState.mk [⟨"svg", [], "",
        [.elem "svg" [] "" [] ""]⟩] true none false false none) ∧
    (PState.mk [⟨"svg", [], "", [.elem "svg" [] "" [] ""]⟩] true none false false
      none).in_svg = false :=
  ⟨rfl, rfl,
    C3_close_svg_clears_flag
      (PState.mk [⟨"svg", [], "", []⟩, ⟨"svg", [], "", []⟩] true none false true none)
      "svg" false _ rfl rfl⟩

/-- C4 (counterexample): the claim asserts that every chunking of one
total input yields the identical tree.  Splitting inside the Chrome
`"=""` artifact refutes it: fed whole, `<a "="">` parses to a root `a`
(the artifact is discarded); fed as `<a "=` then `"">`, the first chunk's
buffered tail puts `check_for_whole_start_tag` on its fatal
`self.error("malformed start tag")` branch (a `"` is not in its
letters/`=`/`/` continuation set), aborting the parse before the second
chunk arrives. -/
theorem C4_counterexample :
    feedChunks false ["<a \"=", "\"\">"] =
      .error (.parseError "malformed start tag") ∧
    (feedChunks false ["<a \"=\"\">"]).map
      (fun d => ((currentRoot d.st).isSome, d.st.stack.map (fun e => e.tag))) =
    .ok (true, ["a"]) :=
  ⟨rfl, rfl⟩

/-- C4 (amended): chunking invariance does not hold for every split — a
boundary inside the Chrome `"=""` artifact aborts the parse (see the
counterexample) — but it does hold for the specification's own example:
feeding `<di` then `v>x</div>` leaves the first chunk buffered as an
incomplete start tag and produces exactly the state and tree of feeding
`<div>x</div>` whole. -/
theorem C4_example_chunking_equal :
    feedChunks false ["<di", "v>x</div>"] = feedChunks false ["<div>x</div>"] ∧
    (feedChunks false ["<div>x</div>"]).map (fun d => currentRoot d.st) =
      .ok (some (.elem "div" [] "x" [] "")) :=
  ⟨rfl, rfl⟩

/-- C5: the spec's testable property `<ul><li>a<li>b</ul>` → root `ul`
with two `li` children.  The autoclose-on-open for the second `li` does
fire (parsing the prefix `<ul><li>a<li>b` yields exactly the claimed
tree), but the source has no implied close on a parent's end tag — the
`check_autoclose` parameter of `close_tag` and `AUTOCLOSE_ON_PARENT_CLOSE`
are dead code — so `</ul>` arrives with the second `li` still open and
the parse aborts with a mismatched-close `HTMLParseError`. -/
theorem C5_ul_li_parse_fails :
    parse_html "<ul><li>a<li>b</ul>" false =
      .error (.parseError "Unexpected close tag: ul. Expected: li") ∧
    parse_html "<ul><li>a<li>b" false =
      .ok (some (.elem "ul" [] ""
        [.elem "li" [] "a" [] "", .elem "li" [] "b" [] ""] "")) :=
  ⟨rfl, rfl⟩

/-- C6: a Tag Scanner attribute match whose captured name is the literal
artifact token `?` (Internet Explorer) or `"` (Chrome) is consumed and
silently discarded: the attribute loop records nothing for it and resumes
exactly at the match's end; consequently `<a href="x" ?>` parses
successfully into an element `a` whose attribute list is exactly
`href="x"`. -/
theorem C6_artifact_discarded :
    (∀ (fuel : Nat) (rawdata : List Char) (endpos k : Nat) (retainAttrs : Bool)
       (acc : List (String × Option String)) (m : AttrMatch),
       k < endpos →
       attrfind (rawdata.drop k) = some m →
       (m.name = "?" ∨ m.name = "\"") →
       attrLoop (fuel + 1) rawdata endpos k retainAttrs acc =
         attrLoop fuel rawdata endpos
           (k + ((rawdata.drop k).length - m.rest.length)) retainAttrs acc) ∧
    parse_html "<a href=\"x\" ?>" false =
      .ok (some (.elem "a" [("href", "x")] "" [] "")) := by
  constructor
  · intro fuel rawdata endpos k retainAttrs acc m hk hfind hart
    have e1 : attrLoop (fuel + 1) rawdata endpos k retainAttrs acc =
        (if k < endpos then
          match attrfind (rawdata.drop k) with
          | none => (acc, k)
          | some m =>
            let consumed := (rawdata.drop k).length - m.rest.length
            let k' := k + consumed
            if m.name = "?" ∨ m.name = "\"" then
              attrLoop fuel rawdata endpos k' retainAttrs acc
            else
              let attrvalue := m.value.map processAttrValue
              let name' := if retainAttrs then m.name else strToLower m.name
              attrLoop fuel rawdata endpos k' retainAttrs (acc ++ [(name', attrvalue)])
         else (acc, k)) := rfl
    rw [e1, if_pos hk, hfind]
    simp only
    rw [if_pos hart]
  · rfl

/-- C6 (witness): the discard property at the actual artifact match of
`<a href="x" ?>` — after `href` the scanner sits at offset 11, matches
the lone `?`, and resumes at offset 13 with the attribute list
unchanged. -/
theorem C6_artifact_discarded_witness :
    (11 < 14) ∧
    attrfind (("<a href=\"x\" ?>".data).drop 11) =
      some { name := "?", value := none, rest := ['>'] } ∧
    attrLoop 4 "<a href=\"x\" ?>".data 14 11 false [("href", some "x")] =
      attrLoop 3 "<a href=\"x\" ?>".data 14 13 false [("href", some "x")] :=
  ⟨by decide, rfl,
    C6_artifact_discarded.1 3 "<a href=\"x\" ?>".data 14 11 false
      [("href", some "x")] { name := "?", value := none, rest := ['>'] }
      (by decide) rfl (Or.inl rfl)⟩

/-- Closing a just-pushed element whose tag matches: never fails, the
completed element (with its recorded children) becomes the last node at
the insertion point, and the stack shrinks back to what was below. -/
theorem close_tag_top (st1 : PState) (new : PElem) (S : List PElem) (tag : String)
    (hstack : st1.stack = new :: S) (htag : new.tag = tag) :
    ∃ st2, close_tag st1 tag false = .ok st2 ∧
      lastAdded st2 = some (finishElem new) ∧
      st2.stack.map (fun e => e.tag) = S.map (fun e => e.tag) := by
  unfold close_tag
  rw [hstack]
  simp only
  rw [if_neg (fun hc => hc.2 htag)]
  cases S with
  | nil =>
    by_cases hsvg : new.tag = "svg"
    · rw [if_pos hsvg]; exact ⟨_, rfl, rfl, rfl⟩
    · rw [if_neg hsvg]; exact ⟨_, rfl, rfl, rfl⟩
  | cons parent below =>
    by_cases hsvg : new.tag = "svg"
    · rw [if_pos hsvg]
      exact ⟨_, rfl, by simp [lastAdded, List.getLast?_concat], rfl⟩
    · rw [if_neg hsvg]
      exact ⟨_, rfl, by simp [lastAdded, List.getLast?_concat], rfl⟩

/-- A successful `open_tag` pushes exactly the new element, above a stack
whose tags are a suffix of the original (autoclose only pops). -/
theorem open_tag_stack (st : PState) (tag : String)
    (attrs : List (String × Option String)) (st1 : PState)
    (h : open_tag st tag attrs = .ok st1) :
    ∃ S, st1.stack =
        { tag := tag, attrib := attribUpdate [] attrs, text := "",
          children := [] } :: S ∧
      S.map (fun e => e.tag) <:+ st.stack.map (fun e => e.tag) := by
  unfold open_tag at h
  simp only [Bind.bind, Except.bind] at h
  cases hp : open_tag_push st
      { tag := tag, attrib := attribUpdate [] attrs, text := "", children := [] }
      tag with
  | error e => rw [hp] at h; exact absurd h (by simp)
  | ok stp =>
    rw [hp] at h
    simp only at h
    have hstack1 : st1.stack = stp.stack := by
      by_cases hsvg : tag = "svg"
      · rw [if_pos hsvg] at h; injection h with h'; subst h'; rfl
      · rw [if_neg hsvg] at h; injection h with h'; subst h'; rfl
    unfold open_tag_push at hp
    by_cases hroot : st.rootStarted = false
    · rw [if_pos hroot] at hp
      injection hp with h2
      subst h2
      exact ⟨st.stack, hstack1, List.suffix_refl _⟩
    · rw [if_neg hroot] at hp
      by_cases hemp : st.stack.isEmpty
      · rw [if_pos hemp] at hp; exact absurd hp (by simp)
      · rw [if_neg hemp] at hp
        simp only [Bind.bind, Except.bind] at hp
        cases hac : check_autoclose_on_open st tag with
        | error e => rw [hac] at hp; exact absurd hp (by simp)
        | ok stA =>
          rw [hac] at hp
          simp only [pure, Except.pure] at hp
          injection hp with h2
          subst h2
          refine ⟨stA.stack, hstack1, ?_⟩
          unfold check_autoclose_on_open at hac
          rw [closeForcedN_stack_tags _ _ _ _ hac]
          exact List.drop_suffix _ _

/-- C7: opening an element whose lowercased tag is a void tag closes it
again at once: on success the new element is recorded as a completed,
childless node at the insertion point (so it can never accumulate
children), and the resulting stack carries only tags that were already on
the stack (the void element is never the insertion point for later
events). -/
theorem C7_void_closed_immediately (st : PState) (tag : String)
    (attrs : List (String × Option String)) (st' : PState)
    (hvoid : strToLower tag ∈ VOID_TAGS)
    (h : handle_starttag st tag attrs = .ok st') :
    lastAdded st' = some (.elem tag (attribUpdate [] attrs) "" [] "") ∧
    st'.stack.map (fun e => e.tag) <:+ st.stack.map (fun e => e.tag) := by
  have hcd : strToLower tag ∉ CDATA_CONTENT_ELEMENTS_V2 := by
    have hdisj : ∀ s ∈ VOID_TAGS, s ∉ CDATA_CONTENT_ELEMENTS_V2 := by decide
    exact hdisj _ hvoid
  unfold handle_starttag at h
  simp only [Bind.bind, Except.bind, if_pos hvoid, if_neg hcd] at h
  cases hopen : open_tag st tag attrs with
  | error e => rw [hopen] at h; exact absurd h (by simp)
  | ok st1 =>
    rw [hopen] at h
    simp only at h
    obtain ⟨S, hstack1, hsuf⟩ := open_tag_stack st tag attrs st1 hopen
    obtain ⟨st2, hclose, hlast, hmap⟩ :=
      close_tag_top st1 _ S tag hstack1 rfl
    rw [hclose] at h
    simp only [pure, Except.pure] at h
    injection h with h'
    subst h'
    exact ⟨hlast, hmap ▸ hsuf⟩

/-- C7 (witness): the theorem at the initial state and `<br>`: the root
becomes the finished childless `br` and the stack is empty again. -/
theorem C7_void_closed_immediately_witness :
    (strToLower "br" ∈ VOID_TAGS) ∧
    handle_starttag (init false) "br" [] =
      .ok (PState.mk [] true (some (.elem "br" [] "" [] "")) false false none) ∧
    lastAdded (PState.mk [] true (some (.elem "br" [] "" [] "")) false false none) =
      some (.elem "br" (attribUpdate [] []) "" [] "") :=
  ⟨by decide, rfl,
    (C7_void_closed_immediately (init false) "br" [] _ (by decide) rfl).1⟩

/-- C8 (counterexample): the claim asserts `insideForeignContent` becomes
true the instant an element literally named `svg` in ANY casing is opened
under ANY `retainCase` setting.  With `retain_case = true` the tag is not
lowercased, so opening `<SVG>` compares `"SVG" == "svg"` — false — and
`in_svg` stays false. -/
theorem C8_counterexample :
    (feed { st := init true, buf := [] } "<SVG>").map
      (fun d => (d.st.in_svg, d.st.stack.map (fun e => e.tag))) =
    .ok (false, ["SVG"]) := rfl

/-- C8 (amended): `in_svg` becomes true the instant an element is opened
whose tag — as captured after the case-folding policy — is exactly the
lowercase string `svg`; a differently-cased `svg` whose casing survives
folding does not set it. -/
theorem C8_open_svg_sets_flag (st : PState) (tag : String)
    (attrs : List (String × Option String)) (st' : PState)
    (htag : tag = "svg") (h : open_tag st tag attrs = .ok st') :
    st'.in_svg = true := by
  subst htag
  unfold open_tag at h
  simp only [Bind.bind, Except.bind] at h
  cases hfirst : open_tag_push st
      { tag := "svg", attrib := attribUpdate [] attrs, text := "", children := [] }
      "svg" with
  | error e => rw [hfirst] at h; exact absurd h (by simp)
  | ok x =>
    rw [hfirst] at h
    simp only [if_pos rfl] at h
    injection h with h'
    subst h'
    rfl

/-- C8 (witness): the amended theorem at the initial state, opening
`svg`. -/
theorem C8_open_svg_sets_flag_witness :
    ("svg" = "svg") ∧
    open_tag (init false) "svg" [] =
      .ok (PState.mk [⟨"svg", [], "", []⟩] true none false true none) ∧
    (PState.mk [⟨"svg", [], "", []⟩] true none false true none).in_svg = true :=
  ⟨rfl, rfl, C8_open_svg_sets_flag (init false) "svg" [] _ rfl rfl⟩

/-- C9: with an empty open-element stack, `handle_comment` reads
`self.stack[-1]` unguarded and fails with a bare `IndexError` (not an
`HTMLParseError`, not a no-op), whereas `handle_data` on the same state
discards the text and leaves the state unchanged. -/
theorem C9_comment_empty_stack_crashes (st : PState) (data : String)
    (h : st.stack = []) :
    handle_comment st data = .error .indexError ∧ handle_data st data = st := by
  constructor
  · unfold handle_comment; rw [h]
  · unfold handle_data; rw [h]

/-- C9 (witness): the theorem at the fresh parser state (stack empty
before the root opens). -/
theorem C9_comment_empty_stack_crashes_witness :
    ((init false).stack = []) ∧
    handle_comment (init false) "c" = .error .indexError ∧
    handle_data (init false) "c" = init false :=
  ⟨rfl, (C9_comment_empty_stack_crashes (init false) "c" rfl).1,
    (C9_comment_empty_stack_crashes (init false) "c" rfl).2⟩

/-- C10: `handle_endtag` on a tag whose lowercased name is a void tag
returns immediately: no error, and the entire parser state — stack, root,
`in_svg`, raw-text mode, and every node already built — is exactly the
input state. -/
theorem C10_void_endtag_noop (st : PState) (tag : String)
    (h : strToLower tag ∈ VOID_TAGS) :
    handle_endtag st tag = .ok st := by
  unfold handle_endtag
  rw [if_pos h]

/-- C10 (witness): the theorem at a mid-document state and the end tag
`br`. -/
theorem C10_void_endtag_noop_witness :
    (strToLower "br" ∈ VOID_TAGS) ∧
    handle_endtag (PState.mk [⟨"div", [], "x", []⟩] true none false false none)
      "br" = .ok (PState.mk [⟨"div", [], "x", []⟩] true none false false none) :=
  ⟨by decide,
    C10_void_endtag_noop (PState.mk [⟨"div", [], "x", []⟩] true none false false none)
      "br" (by decide)⟩

end MirrorDom
